import Mathlib

/-!
Verification of src/claude/get_usage.py (usage-screen scraper).

The Python source is shallowly embedded here.  Text is modelled as
List Char.  The specific uses of re.search in parse_usage_output are
modelled by a small backtracking matcher (leftmost start position,
left-first alternation, greedy and lazy quantifiers over single
character classes), which is exactly the semantics the CPython engine
applies to the patterns appearing in the source.  Python datetime
values are modelled by PyDateTime; datetime operations that can raise
ValueError are modelled in an Except monad.  The dollar-amount fields
(extra_spent, extra_limit) involve Python float parsing and are not
referenced by any claim; they are outside this integer model.
-/

set_option maxRecDepth 8000

/-! ### Character classes used by the patterns -/

/-- Python regex whitespace class (ASCII range, as in the rendered UI text). -/
def isWs (c : Char) : Bool :=
  c == ' ' || c == '\t' || c == '\n' || c == '\r' || c == '\x0b' || c == '\x0c'

/-- Python regex word class (ASCII range). -/
def isWordC (c : Char) : Bool :=
  c.isAlphanum || c == '_'

/-! ### Backtracking regex matcher -/

/-- Regex abstract syntax: classes, quantified classes (greedy or lazy),
sequencing, alternation, greedy option, and capture groups.  This covers
every pattern in parse_usage_output. -/
inductive Rx where
  | eps : Rx
  | cls (p : Char → Bool) : Rx
  | star (lazy : Bool) (p : Char → Bool) : Rx
  | plus (lazy : Bool) (p : Char → Bool) : Rx
  | seq (a b : Rx) : Rx
  | alt (a b : Rx) : Rx
  | opt (a : Rx) : Rx
  | grp (n : Nat) (a : Rx) : Rx

/-- Captured groups: most recent capture for a group number is first. -/
abbrev Caps := List (Nat × List Char)

/-- Greedy class repetition: consume as many class characters as possible,
backtracking towards shorter matches. -/
def repGreedy (p : Char → Bool) (k : List Char → Option Caps) : List Char → Option Caps
  | [] => k []
  | c :: s => if p c then (repGreedy p k s).orElse (fun _ => k (c :: s)) else k (c :: s)

/-- Lazy class repetition: consume as few class characters as possible,
backtracking towards longer matches. -/
def repLazy (p : Char → Bool) (k : List Char → Option Caps) : List Char → Option Caps
  | [] => k []
  | c :: s => (k (c :: s)).orElse (fun _ => if p c then repLazy p k s else none)

/-- Match a regex against a prefix of the input, CPS style.  The
continuation receives the remaining input and the captures made so far;
alternatives are tried in the priority order of the CPython engine. -/
def matchRx : Rx → List Char → Caps → (List Char → Caps → Option Caps) → Option Caps
  | .eps, s, caps, k => k s caps
  | .cls p, s, caps, k =>
    match s with
    | [] => none
    | c :: s => if p c then k s caps else none
  | .star lz p, s, caps, k =>
    if lz then repLazy p (fun s => k s caps) s else repGreedy p (fun s => k s caps) s
  | .plus lz p, s, caps, k =>
    match s with
    | [] => none
    | c :: s =>
      if p c then
        if lz then repLazy p (fun s => k s caps) s else repGreedy p (fun s => k s caps) s
      else none
  | .seq a b, s, caps, k => matchRx a s caps (fun s caps => matchRx b s caps k)
  | .alt a b, s, caps, k => (matchRx a s caps k).orElse (fun _ => matchRx b s caps k)
  | .opt a, s, caps, k => (matchRx a s caps k).orElse (fun _ => k s caps)
  | .grp n a, s, caps, k =>
    matchRx a s caps (fun s2 caps2 => k s2 ((n, s.take (s.length - s2.length)) :: caps2))

/-- Try to match at the current position. -/
def rxMatchAt (r : Rx) (s : List Char) : Option Caps :=
  matchRx r s [] (fun _ caps => some caps)

/-- re.search: try every start position from the left; first success wins. -/
def rxSearch (r : Rx) : List Char → Option Caps
  | [] => rxMatchAt r []
  | c :: s =>
    match rxMatchAt r (c :: s) with
    | some caps => some caps
    | none => rxSearch r s

/-- Content of a numbered group; none when the group did not take part in
the match (Python m.group(n) is None). -/
def getCap (caps : Caps) (n : Nat) : Option (List Char) :=
  (caps.find? (fun p => p.1 == n)).map Prod.snd

/-- Group content defaulted to empty (only used where the pattern makes the
group mandatory, so the default never fires on a successful search). -/
def getCapD (caps : Caps) (n : Nat) : List Char :=
  (getCap caps n).getD []

/-! ### Pattern transcriptions

Each definition below transcribes one re.search pattern from
parse_usage_output, flag for flag.  All searches in the source use
re.DOTALL, so the dot class accepts every character. -/

/-- One literal character, case sensitive. -/
def chrC (c : Char) : Rx := .cls (fun d => d == c)

/-- One literal character under re.IGNORECASE. -/
def chrI (c : Char) : Rx := .cls (fun d => d.toLower == c.toLower)

/-- Sequence a list of regexes. -/
def seqAll (rs : List Rx) : Rx := rs.foldr Rx.seq Rx.eps

/-- Case-sensitive literal string. -/
def litC (s : String) : Rx := seqAll (s.data.map chrC)

/-- Literal string under re.IGNORECASE. -/
def litI (s : String) : Rx := seqAll (s.data.map chrI)

/-- Sub-pattern (\d+(?::\d+)?) capturing into group g. -/
def timeGrp (g : Nat) : Rx :=
  .grp g (seqAll [.plus false Char.isDigit, .opt (seqAll [chrC ':', .plus false Char.isDigit])])

/-- r"session.+?(\d+)%\s*used" with DOTALL and IGNORECASE. -/
def sessionPercentRx : Rx :=
  seqAll [litI "session", .plus true (fun _ => true), .grp 1 (.plus false Char.isDigit),
    chrC '%', .star false isWs, litI "used"]

/-- r"Rese[\w\s]*?(\d+(?::\d+)?)\s*([ap]?\s*m)" with DOTALL and IGNORECASE. -/
def sessionResetRx : Rx :=
  seqAll [litI "Rese", .star true (fun c => isWordC c || isWs c), timeGrp 1,
    .star false isWs,
    .grp 2 (seqAll [.opt (.cls (fun c => c.toLower == 'a' || c.toLower == 'p')),
      .star false isWs, chrI 'm'])]

/-- Case-sensitive section anchor "Current week (all models)" with the
whitespace elasticity of the source pattern. -/
def weekAnchorC : Rx :=
  seqAll [litC "Current", .plus false isWs, litC "week", .star false isWs, chrC '(',
    litC "all", .star false isWs, litC "models", chrC ')']

/-- The same anchor under IGNORECASE (the reset pattern adds the flag). -/
def weekAnchorI : Rx :=
  seqAll [litI "Current", .plus false isWs, litI "week", .star false isWs, chrC '(',
    litI "all", .star false isWs, litI "models", chrC ')']

/-- Case-sensitive section anchor "Current week (Sonnet only)". -/
def sonnetAnchorC : Rx :=
  seqAll [litC "Current", .plus false isWs, litC "week", .star false isWs, chrC '(',
    litC "Sonnet", .star false isWs, litC "only", chrC ')']

/-- The Sonnet anchor under IGNORECASE. -/
def sonnetAnchorI : Rx :=
  seqAll [litI "Current", .plus false isWs, litI "week", .star false isWs, chrC '(',
    litI "Sonnet", .star false isWs, litI "only", chrC ')']

/-- r".+?(\d+)%\s*used" tail of the three percent patterns. -/
def percentTail : Rx :=
  seqAll [.plus true (fun _ => true), .grp 1 (.plus false Char.isDigit), chrC '%',
    .star false isWs, litC "used"]

/-- r"Current\s+week\s*\(all\s*models\).+?(\d+)%\s*used" with DOTALL. -/
def weekPercentRx : Rx := .seq weekAnchorC percentTail

/-- r"Current\s+week\s*\(Sonnet\s*only\).+?(\d+)%\s*used" with DOTALL. -/
def sonnetPercentRx : Rx := .seq sonnetAnchorC percentTail

/-- r"Extra\s+usage.+?(\d+)%\s*used" with DOTALL. -/
def extraPercentRx : Rx :=
  .seq (seqAll [litC "Extra", .plus false isWs, litC "usage"]) percentTail

/-- r"Resets?\s+([A-Za-z]+\s+\d+)(?:,?\s*(\d{4}))?\s*(?:at\s+)?" shared tail
of the dated reset patterns (IGNORECASE). -/
def resetDateHead : Rx :=
  seqAll [litI "Reset", .opt (chrI 's'), .plus false isWs,
    .grp 1 (seqAll [.plus false Char.isAlpha, .plus false isWs, .plus false Char.isDigit]),
    .opt (seqAll [.opt (chrC ','), .star false isWs,
      .grp 2 (seqAll [.cls Char.isDigit, .cls Char.isDigit, .cls Char.isDigit, .cls Char.isDigit])]),
    .star false isWs,
    .opt (seqAll [litI "at", .plus false isWs])]

/-- r"(\d+(?::\d+)?)\s*(am|pm)" mandatory clock tail (IGNORECASE). -/
def clockTail : Rx :=
  seqAll [timeGrp 3, .star false isWs, .grp 4 (.alt (litI "am") (litI "pm"))]

/-- The week reset pattern (DOTALL, IGNORECASE). -/
def weekResetRx : Rx :=
  seqAll [weekAnchorI, .star true (fun _ => true), resetDateHead, clockTail]

/-- The Sonnet reset pattern (DOTALL, IGNORECASE). -/
def sonnetResetRx : Rx :=
  seqAll [sonnetAnchorI, .star true (fun _ => true), resetDateHead, clockTail]

/-- The extra-usage reset pattern: the clock part is optional (DOTALL, IGNORECASE). -/
def extraResetRx : Rx :=
  seqAll [litI "Extra", .plus false isWs, litI "usage", .star true (fun _ => true),
    resetDateHead, .opt clockTail]

/-! ### Python datetime model -/

/-- A timezone-aware Python datetime (one fixed local zone; the source
builds and compares datetimes within a single zone).  Microseconds are
kept so that strict comparisons against "now" are faithful. -/
structure PyDateTime where
  year : Nat
  month : Nat
  day : Nat
  hour : Nat
  minute : Nat
  second : Nat
  usec : Nat
deriving DecidableEq, Repr

/-- The Python exceptions that parse_usage_output can leak. -/
inductive PyErr where
  | valueError : PyErr
deriving DecidableEq, Repr

/-- Field order used by datetime comparison. -/
def dtList (d : PyDateTime) : List Nat :=
  [d.year, d.month, d.day, d.hour, d.minute, d.second, d.usec]

/-- Lexicographic strict order on equal-length Nat lists. -/
def natListLt : List Nat → List Nat → Bool
  | [], _ => false
  | _ :: _, [] => false
  | a :: as, b :: bs => if a < b then true else if a == b then natListLt as bs else false

/-- Python datetime strict comparison. -/
def dtLt (a b : PyDateTime) : Bool := natListLt (dtList a) (dtList b)

/-- Python datetime non-strict comparison. -/
def dtLe (a b : PyDateTime) : Bool := dtLt a b || a == b

/-- Gregorian leap-year rule. -/
def isLeap (y : Nat) : Bool := (y % 4 == 0 && y % 100 != 0) || y % 400 == 0

/-- Days in a month, as validated by the Python datetime constructor. -/
def daysInMonth (y m : Nat) : Nat :=
  if m == 2 then (if isLeap y then 29 else 28)
  else if m == 4 || m == 6 || m == 9 || m == 11 then 30
  else 31

/-- datetime(year, month, day, hour, minute) with the constructor checks;
none models ValueError. -/
def mkDatetime (y m d h mi : Nat) : Option PyDateTime :=
  if 1 ≤ y ∧ y ≤ 9999 ∧ 1 ≤ m ∧ m ≤ 12 ∧ 1 ≤ d ∧ d ≤ daysInMonth y m ∧ h ≤ 23 ∧ mi ≤ 59 then
    some ⟨y, m, d, h, mi, 0, 0⟩
  else none

/-- now.replace(hour=h, minute=mi, second=0, microsecond=0); raises
ValueError when the new time of day is out of range. -/
def pyReplaceTime (now : PyDateTime) (h mi : Nat) : Except PyErr PyDateTime :=
  if h ≤ 23 ∧ mi ≤ 59 then .ok { now with hour := h, minute := mi, second := 0, usec := 0 }
  else .error .valueError

/-- target.replace(day=d); raises ValueError when d is not a valid day of
the current month. -/
def pyReplaceDay (dt : PyDateTime) (d : Nat) : Except PyErr PyDateTime :=
  if 1 ≤ d ∧ d ≤ daysInMonth dt.year dt.month then .ok { dt with day := d }
  else .error .valueError

/-! ### Helpers shared with the source -/

/-- Numeric value of a digit string; models int() on the all-digit
captures produced by the patterns. -/
def digitsVal (s : List Char) : Nat :=
  s.foldl (fun acc c => 10 * acc + (c.toNat - '0'.toNat)) 0

/-- int() of a digit capture as a Python integer. -/
def pyIntDigits (s : List Char) : Int := Int.ofNat (digitsVal s)

/-- Python str.split on the colon character. -/
def splitColon : List Char → List (List Char)
  | [] => [[]]
  | c :: rest =>
    if c == ':' then [] :: splitColon rest
    else
      match splitColon rest with
      | [] => [[c]]
      | h :: t => (c :: h) :: t

/-- _parse_time from the source: split an optional ":" and apply the
12-hour to 24-hour conversion. -/
def parse_time (time_part : List Char) (ampm : String) : Nat × Nat :=
  let hm : Nat × Nat :=
    if time_part.contains ':' then
      (digitsVal ((splitColon time_part).getD 0 []),
       digitsVal ((splitColon time_part).getD 1 []))
    else (digitsVal time_part, 0)
  if ampm == "pm" && hm.1 != 12 then (hm.1 + 12, hm.2)
  else if ampm == "am" && hm.1 == 12 then (0, hm.2)
  else hm

/-- Three-letter month abbreviation table of strptime %b, case folded. -/
def monthNum (s : List Char) : Option Nat :=
  let t := s.map Char.toLower
  if t == "jan".data then some 1 else if t == "feb".data then some 2
  else if t == "mar".data then some 3 else if t == "apr".data then some 4
  else if t == "may".data then some 5 else if t == "jun".data then some 6
  else if t == "jul".data then some 7 else if t == "aug".data then some 8
  else if t == "sep".data then some 9 else if t == "oct".data then some 10
  else if t == "nov".data then some 11 else if t == "dec".data then some 12
  else none

/-- strptime(date_str + " " + year, "%b %d %Y") on a capture of shape
letters, whitespace, digits: month must be exactly a three-letter
abbreviation, the day token at most two digits with value 1..31, and the
resulting calendar date valid in the given year. -/
def parseMonthDay (date_str : List Char) (year : Nat) : Option (Nat × Nat) :=
  let mon := date_str.takeWhile Char.isAlpha
  let rest := date_str.dropWhile Char.isAlpha
  let sp := rest.takeWhile isWs
  let dayS := rest.dropWhile isWs
  match monthNum mon with
  | none => none
  | some m =>
    if 1 ≤ sp.length ∧ dayS ≠ [] ∧ dayS.length ≤ 2 ∧ dayS.all Char.isDigit ∧
        1 ≤ digitsVal dayS ∧ digitsVal dayS ≤ daysInMonth year m then
      some (m, digitsVal dayS)
    else none

/-- _parse_reset_date from the source: optional explicit year, otherwise
the current year rolled forward by one when the date already passed; every
internal ValueError is swallowed into none. -/
def parse_reset_date (date_str : List Char) (year_str : Option (List Char))
    (hour minute : Nat) (now : PyDateTime) : Option PyDateTime :=
  match parseMonthDay date_str now.year with
  | none => none
  | some (m, d) =>
    match year_str with
    | some ys => mkDatetime (digitsVal ys) m d hour minute
    | none =>
      match mkDatetime now.year m d hour minute with
      | none => none
      | some tt =>
        let y := if dtLt tt now then now.year + 1 else now.year
        mkDatetime y m d hour minute

/-! ### Field extraction -/

/-- Case-insensitive prefix test (for the "week" cut). -/
def ciStarts : List Char → List Char → Bool
  | [], _ => true
  | _ :: _, [] => false
  | p :: ps, c :: cs => p.toLower == c.toLower && ciStarts ps cs

/-- text[: re.search("week", text, IGNORECASE).start()], or the whole text
when "week" does not occur: the session section bound. -/
def cutAtWeek : List Char → List Char
  | [] => []
  | c :: rest => if ciStarts "week".data (c :: rest) then [] else c :: cutAtWeek rest

/-- Whitespace removal, re.sub(r"\s", "", tok). -/
def stripWsChars (s : List Char) : List Char := s.filter (fun c => !isWs c)

/-- The damaged-meridiem heuristic of the session branch:
strip whitespace, lower, and treat as PM exactly when the token starts
with "p". -/
def ampmHeur (tok : List Char) : String :=
  if ((stripWsChars tok).map Char.toLower).head? == some 'p' then "pm" else "am"

/-- The session percent field. -/
def sessionPercentOf (text : List Char) : Option Int :=
  (rxSearch sessionPercentRx (cutAtWeek text)).map (fun caps => pyIntDigits (getCapD caps 1))

/-- The session reset field; the day roll-over uses datetime.replace on
the day number and can therefore raise (Except models the exception). -/
def sessionResetOf (text : List Char) (now : PyDateTime) : Except PyErr (Option PyDateTime) :=
  match rxSearch sessionResetRx (cutAtWeek text) with
  | none => .ok none
  | some caps =>
    let ampm := ampmHeur (getCapD caps 2)
    let hm := parse_time (getCapD caps 1) ampm
    match pyReplaceTime now hm.1 hm.2 with
    | .error e => .error e
    | .ok target =>
      if dtLe target now then
        match pyReplaceDay target (target.day + 1) with
        | .error e => .error e
        | .ok t2 => .ok (some t2)
      else .ok (some target)

/-- The weekly all-models percent field. -/
def weekPercentOf (text : List Char) : Option Int :=
  (rxSearch weekPercentRx text).map (fun caps => pyIntDigits (getCapD caps 1))

/-- The weekly all-models reset field. -/
def weekResetOf (text : List Char) (now : PyDateTime) : Option PyDateTime :=
  match rxSearch weekResetRx text with
  | none => none
  | some caps =>
    let hm := parse_time (getCapD caps 3) (String.mk ((getCapD caps 4).map Char.toLower))
    parse_reset_date (getCapD caps 1) (getCap caps 2) hm.1 hm.2 now

/-- The Sonnet-only percent field. -/
def sonnetPercentOf (text : List Char) : Option Int :=
  (rxSearch sonnetPercentRx text).map (fun caps => pyIntDigits (getCapD caps 1))

/-- The Sonnet-only reset field. -/
def sonnetResetOf (text : List Char) (now : PyDateTime) : Option PyDateTime :=
  match rxSearch sonnetResetRx text with
  | none => none
  | some caps =>
    let hm := parse_time (getCapD caps 3) (String.mk ((getCapD caps 4).map Char.toLower))
    parse_reset_date (getCapD caps 1) (getCap caps 2) hm.1 hm.2 now

/-- The extra-usage percent field. -/
def extraPercentOf (text : List Char) : Option Int :=
  (rxSearch extraPercentRx text).map (fun caps => pyIntDigits (getCapD caps 1))

/-- The extra-usage reset field; the clock part is optional and defaults
to midnight, a missing meridiem defaults to "am". -/
def extraResetOf (text : List Char) (now : PyDateTime) : Option PyDateTime :=
  match rxSearch extraResetRx text with
  | none => none
  | some caps =>
    if getCapD caps 1 ≠ [] then
      let hm :=
        match getCap caps 3 with
        | some t => parse_time t (String.mk (((getCap caps 4).getD "am".data).map Char.toLower))
        | none => (0, 0)
      parse_reset_date (getCapD caps 1) (getCap caps 2) hm.1 hm.2 now
    else none

/-- The dictionary produced by parse_usage_output (the two dollar-amount
fields are outside this integer model and carried by no claim). -/
structure UsageFields where
  session_percent : Option Int
  session_reset : Option PyDateTime
  week_percent : Option Int
  week_reset : Option PyDateTime
  sonnet_percent : Option Int
  sonnet_reset : Option PyDateTime
  extra_percent : Option Int
  extra_reset : Option PyDateTime
deriving DecidableEq, Repr

/-- parse_usage_output from the source.  The only statement inside it that
can raise is the session reset roll-over; the Except propagates exactly
that exception, in which case no dictionary is returned at all. -/
def parse_usage_output (text : List Char) (now : PyDateTime) : Except PyErr UsageFields :=
  match sessionResetOf text now with
  | .error e => .error e
  | .ok sr =>
    .ok { session_percent := sessionPercentOf text
          session_reset := sr
          week_percent := weekPercentOf text
          week_reset := weekResetOf text now
          sonnet_percent := sonnetPercentOf text
          sonnet_reset := sonnetResetOf text now
          extra_percent := extraPercentOf text
          extra_reset := extraResetOf text now }

/-! ### Field keys and completion policy -/

/-- The key set of the dictionary returned by parse_usage_output. -/
def fieldKeys (f : UsageFields) : List String :=
  (if f.session_percent.isSome then ["session_percent"] else []) ++
  (if f.session_reset.isSome then ["session_reset"] else []) ++
  (if f.week_percent.isSome then ["week_percent"] else []) ++
  (if f.week_reset.isSome then ["week_reset"] else []) ++
  (if f.sonnet_percent.isSome then ["sonnet_percent"] else []) ++
  (if f.sonnet_reset.isSome then ["sonnet_reset"] else []) ++
  (if f.extra_percent.isSome then ["extra_percent"] else []) ++
  (if f.extra_reset.isSome then ["extra_reset"] else [])

/-- The completion signal of the poll loop:
"session_percent" in data and "week_percent" in data. -/
def completionSignal (f : UsageFields) : Bool :=
  (fieldKeys f).contains "session_percent" && (fieldKeys f).contains "week_percent"

/-- States of the completion and deadline policy. -/
inductive PolicyState where
  | polling : PolicyState
  | earlyDone : PolicyState
  | timedOut : PolicyState
deriving DecidableEq, Repr

/-- One poll tick of the policy: the loop only tests the completion signal
while still polling; the two terminal states are absorbing. -/
def policyStep (s : PolicyState) (f : UsageFields) : PolicyState :=
  match s with
  | .polling => if completionSignal f then .earlyDone else .polling
  | s => s

/-- The policy state after a sequence of parse snapshots taken within the
deadline. -/
def policyRun (ticks : List UsageFields) : PolicyState :=
  ticks.foldl policyStep .polling

/-- Deadline expiry: only a still-polling loop times out. -/
def policyTimeout (s : PolicyState) : PolicyState :=
  match s with
  | .polling => .timedOut
  | s => s

/-! ### First-seen field timing (seen_fields) -/

/-- One key of one tick: insert the elapsed time only when the key was
never seen before. -/
def seenStep (elapsed : Nat) (s : List (String × Nat)) (key : String) : List (String × Nat) :=
  if (s.find? (fun p => p.1 == key)).isSome then s else s ++ [(key, elapsed)]

/-- Dictionary lookup in the timing map. -/
def lookupSeen (s : List (String × Nat)) (key : String) : Option Nat :=
  (s.find? (fun p => p.1 == key)).map Prod.snd

/-- for key in data: if key not in seen_fields: seen_fields[key] = elapsed. -/
def updateSeen (s : List (String × Nat)) (keys : List String) (elapsed : Nat) :
    List (String × Nat) :=
  keys.foldl (seenStep elapsed) s

/-- The timing map after a sequence of ticks, each a parse snapshot with
its elapsed time (the final pass after the loop has the same shape). -/
def runSeen (s : List (String × Nat)) (ticks : List (UsageFields × Nat)) :
    List (String × Nat) :=
  ticks.foldl (fun acc t => updateSeen acc (fieldKeys t.1) t.2) s

/-! ### Executable resolution and launch guard -/

/-- The parts of the host consulted by find_claude. -/
structure ExecEnv where
  whichClaude : Option String
  npmGlobalClaudeIsFile : Bool
  localBinClaudeIsFile : Bool
  usrLocalClaudeIsFile : Bool
  usrBinClaudeIsFile : Bool
  nvmNodeVersions : Option (List String)
  nvmClaudeExists : String → Bool
  whichNpx : Option String

/-- find_claude from the source: PATH, the fixed per-user locations, the
nvm version directories, then the npx fallback. -/
def find_claude (env : ExecEnv) : Option String :=
  match env.whichClaude with
  | some c => some c
  | none =>
    if env.npmGlobalClaudeIsFile then some "~/.npm-global/bin/claude"
    else if env.localBinClaudeIsFile then some "~/.local/bin/claude"
    else if env.usrLocalClaudeIsFile then some "/usr/local/bin/claude"
    else if env.usrBinClaudeIsFile then some "/usr/bin/claude"
    else
      match env.nvmNodeVersions with
      | some vers =>
        match vers.find? env.nvmClaudeExists with
        | some v => some ("~/.nvm/versions/node/" ++ v ++ "/bin/claude")
        | none => if env.whichNpx.isSome then some "npx claude" else none
      | none => if env.whichNpx.isSome then some "npx claude" else none

/-- Observable outcome of one fetch: the error result, whether a
pseudo-terminal was opened, whether a child was spawned, and the list of
artifact paths removed by teardown. -/
structure FetchOutcome where
  errorResult : Option String
  ptyOpened : Bool
  processSpawned : Bool
  removedPaths : List (List (List Char))
deriving Repr

/-- The launch guard of fetch_usage_via_pty: when no executable resolves
the function returns the error dictionary at once; the whole PTY session
(openpty, spawn, poll loop, teardown) only runs on the success branch and
is abstracted by the launch continuation. -/
def fetchUsageViaPty (env : ExecEnv) (launch : String → FetchOutcome) : FetchOutcome :=
  match find_claude env with
  | none =>
    { errorResult := some "Claude not found", ptyOpened := false,
      processSpawned := false, removedPaths := [] }
  | some cmd => launch cmd

/-! ### Session artifact cleanup (clean_session) -/

/-- Paths as component lists (no separator character inside a component). -/
abbrev CPath := List (List Char)

/-- A file-system entry: its absolute path and whether it is a directory. -/
structure FsEntry where
  path : CPath
  isDir : Bool
deriving DecidableEq, Repr

/-- CLAUDE_DIR, the root of all session artifacts. -/
def claudeDir : CPath := ["~".data, ".claude".data]

/-- Does any entry have exactly this path (Path.exists)? -/
def fsExistsP (fs : List FsEntry) (p : CPath) : Bool :=
  fs.any (fun e => e.path == p)

/-- Is there a directory entry with exactly this path (Path.is_dir)? -/
def fsIsDirP (fs : List FsEntry) (p : CPath) : Bool :=
  fs.any (fun e => e.path == p && e.isDir)

/-- Names of the entries directly inside a directory (Path.iterdir). -/
def childNames (fs : List FsEntry) (p : CPath) : List (List Char) :=
  fs.filterMap (fun e =>
    match e.path.drop p.length with
    | [n] => if e.path.take p.length == p then some n else none
    | _ => none)

/-- Names of the directories directly inside a directory. -/
def childDirNames (fs : List FsEntry) (p : CPath) : List (List Char) :=
  fs.filterMap (fun e =>
    match e.path.drop p.length with
    | [n] => if e.path.take p.length == p && e.isDir then some n else none
    | _ => none)

/-- Try a match continuation at every suffix of the name, preferring the
shortest star consumption first (the accepted names are the same either
way). -/
def starMatch (f : List Char → Bool) : List Char → Bool
  | [] => f []
  | d :: n => f (d :: n) || starMatch f n

/-- fnmatch-style matching for the patterns Path.glob receives here:
a star matches any run of characters, a question mark any one character,
every other character itself. -/
def globMatch : List Char → List Char → Bool
  | [], name => name.isEmpty
  | c :: p, name =>
    if c == '*' then starMatch (fun nn => globMatch p nn) name
    else
      match name with
      | [] => false
      | d :: n => (c == '?' || c == d) && globMatch p n

/-- One removal action: the path passed to unlink or rmtree, and whether
it removes a whole tree. -/
abbrev RmAct := CPath × Bool

/-- The removal actions of clean_session in source order: the three fixed
patterns under CLAUDE_DIR, the todos glob, then the per-project session
file and session subdirectory.  All the action targets live in disjoint
subtrees of CLAUDE_DIR, so listing the actions first and applying them
together is the behaviour of the sequential source. -/
def sessionActs (fs : List FsEntry) (sid : List Char) : List RmAct :=
  let debugP := claudeDir ++ ["debug".data, sid ++ ".txt".data]
  let envP := claudeDir ++ ["session-env".data, sid]
  let fhP := claudeDir ++ ["file-history".data, sid]
  let todosP := claudeDir ++ ["todos".data]
  let projP := claudeDir ++ ["projects".data]
  (if fsExistsP fs debugP then [(debugP, false)] else []) ++
  (if fsIsDirP fs envP then [(envP, true)] else []) ++
  (if fsIsDirP fs fhP then [(fhP, true)] else []) ++
  (if fsIsDirP fs todosP then
    ((childNames fs todosP).filter (fun n => globMatch (sid ++ "-*.json".data) n)).map
      (fun n => (todosP ++ [n], false))
  else []) ++
  (if fsIsDirP fs projP then
    ((childDirNames fs projP).map (fun pr =>
      (if fsExistsP fs (projP ++ [pr, sid ++ ".jsonl".data]) then
        [((projP ++ [pr, sid ++ ".jsonl".data] : CPath), false)] else []) ++
      (if fsIsDirP fs (projP ++ [pr, sid]) then [((projP ++ [pr, sid] : CPath), true)] else []))).flatten
  else [])

/-- Does this action delete an entry at this path (rmtree also deletes
everything below its target)? -/
def coversB (a : RmAct) (q : CPath) : Bool :=
  q == a.1 || (a.2 && a.1.isPrefixOf q)

/-- clean_session from the source: the returned list of removed paths and
the file system left behind. -/
def clean_session (fs : List FsEntry) (sid : List Char) : List CPath × List FsEntry :=
  let acts := sessionActs fs sid
  (acts.map Prod.fst, fs.filter (fun e => !(acts.any (fun a => coversB a e.path))))

/-- Substring test on character lists. -/
def containsSub (needle : List Char) : List Char → Bool
  | [] => needle.isEmpty
  | c :: t => needle.isPrefixOf (c :: t) || containsSub needle t

/-- A path contains the identifier when some component does.  Session
identifiers never contain a path separator, so this is the substring test
on the rendered path string. -/
def pathContains (p : CPath) (sid : List Char) : Bool :=
  p.any (fun comp => containsSub sid comp)

/-! ### Spec-side reference definitions -/

/-- Calendar successor of a day, rolling month and year boundaries. -/
def nextCalendarDay (d : PyDateTime) : PyDateTime :=
  if d.day < daysInMonth d.year d.month then { d with day := d.day + 1 }
  else if d.month < 12 then { d with month := d.month + 1, day := 1 }
  else { d with year := d.year + 1, month := 1, day := 1 }

/-- Reference definition following the spec wording for the session reset
(the refinement target the source is compared against): the inferred reset
is today at the parsed time, or tomorrow — the proper calendar successor —
when that time has already elapsed today. -/
def sessionResetSpec (text : List Char) (now : PyDateTime) : Option PyDateTime :=
  match rxSearch sessionResetRx (cutAtWeek text) with
  | none => none
  | some caps =>
    let ampm := ampmHeur (getCapD caps 2)
    let hm := parse_time (getCapD caps 1) ampm
    if hm.1 ≤ 23 ∧ hm.2 ≤ 59 then
      let target : PyDateTime := { now with hour := hm.1, minute := hm.2, second := 0, usec := 0 }
      some (if dtLe target now then nextCalendarDay target else target)
    else none

/-! ### Claim theorems -/

/-- Claim C1 (code_bug evidence): extraction does not always succeed.  On
the last day of a month, with a session reset time that has already
elapsed, the roll to "tomorrow" is computed as target.replace(day = day+1)
and raises ValueError, so parse_usage_output propagates an exception
instead of returning a mapping. -/
theorem C1_parse_raises_month_end :
    parse_usage_output "Resets 1am".data ⟨2026, 1, 31, 2, 0, 0, 0⟩ =
      Except.error PyErr.valueError := by
  rfl

/-- Claim C2 counterexample: a percent literal above 100 in the session
section is extracted verbatim, so an extracted percent field is not
always within the closed interval zero to one hundred. -/
theorem C2_percent_above_100 :
    sessionPercentOf "session 150% used".data = some 150 ∧ ¬ ((150 : Int) ≤ 100) := by
  exact ⟨by rfl, by decide⟩

/-- Claim C3 (code_bug evidence): only the session section is bounded.
In a text whose all-models section contains no percent of its own, the
week pattern spans across the Sonnet anchor and returns the percent that
belongs to the Sonnet-only section as week_percent. -/
theorem C3_week_percent_leaks_from_sonnet :
    weekPercentOf "Current week (all models)\nCurrent week (Sonnet only) 30% used".data =
        some 30 ∧
      sonnetPercentOf "Current week (all models)\nCurrent week (Sonnet only) 30% used".data =
        some 30 := by
  exact ⟨by rfl, by rfl⟩

/-- Claim C4 (code_bug evidence): when "today at that time" has already
elapsed and today is the last day of a month, the source raises ValueError
instead of returning tomorrow; the spec-side reference definition returns
the first day of the next month at the parsed time. -/
theorem C4_session_roll_month_end :
    sessionResetOf "Resets 3pm".data ⟨2026, 1, 31, 16, 0, 0, 0⟩ =
        Except.error PyErr.valueError ∧
      sessionResetSpec "Resets 3pm".data ⟨2026, 1, 31, 16, 0, 0, 0⟩ =
        some ⟨2026, 2, 1, 15, 0, 0, 0⟩ := by
  exact ⟨by rfl, by rfl⟩

/-- Claim C5 counterexample: the weekly all-models reset match requires a
literal meridiem: on otherwise identical texts it succeeds with "pm" and
fails entirely with the damaged token "p m", rather than applying the
starts-with-p heuristic. -/
theorem C5_week_meridiem_not_tolerant :
    weekResetOf "Current week (all models) 5% used Resets Mar 3 at 3:05 pm".data
        ⟨2026, 1, 10, 0, 0, 0, 0⟩ = some ⟨2026, 3, 3, 15, 5, 0, 0⟩ ∧
      weekResetOf "Current week (all models) 5% used Resets Mar 3 at 3:05 p m".data
        ⟨2026, 1, 10, 0, 0, 0, 0⟩ = none := by
  exact ⟨by rfl, by rfl⟩

/-- Claim C5 as amended: only the session reset match tolerates a damaged
meridiem marker, treating the token as PM exactly when, stripped of
whitespace, it starts with "p", and as AM otherwise; so "3:05" yields
15:05 under a p-initial token and 03:05 otherwise, as the two concrete
session extractions with tokens "p m" and "m" show end to end. -/
theorem C5_session_meridiem_heuristic :
    (∀ tok : List Char,
      (((stripWsChars tok).map Char.toLower).head? = some 'p' →
        parse_time "3:05".data (ampmHeur tok) = (15, 5)) ∧
      (((stripWsChars tok).map Char.toLower).head? ≠ some 'p' →
        parse_time "3:05".data (ampmHeur tok) = (3, 5))) ∧
    sessionResetOf "Rese s 3:05 p m".data ⟨2026, 1, 10, 10, 0, 0, 0⟩ =
      Except.ok (some ⟨2026, 1, 10, 15, 5, 0, 0⟩) ∧
    sessionResetOf "Rese s 3:05 m".data ⟨2026, 1, 10, 10, 0, 0, 0⟩ =
      Except.ok (some ⟨2026, 1, 11, 3, 5, 0, 0⟩) := by
  refine ⟨fun tok => ⟨fun h => ?_, fun h => ?_⟩, by rfl, by rfl⟩
  · simp only [ampmHeur, h]
    rfl
  · have hb : (((stripWsChars tok).map Char.toLower).head? == some 'p') = false := by
      simpa using h
    simp only [ampmHeur, hb]
    rfl

/-- Witness for C5_session_meridiem_heuristic at the concrete damaged
tokens "p m" and "m". -/
theorem C5_session_meridiem_heuristic_witness :
    parse_time "3:05".data (ampmHeur "p m".data) = (15, 5) ∧
    parse_time "3:05".data (ampmHeur "m".data) = (3, 5) :=
  ⟨(C5_session_meridiem_heuristic.1 "p m".data).1 (by decide),
   (C5_session_meridiem_heuristic.1 "m".data).2 (by decide)⟩

/-- Claim C2 as amended: every successfully extracted percent field is a
nonnegative integer (the digit run is converted verbatim, so values above
one hundred pass through and the upper bound of the original claim does
not hold). -/
theorem C2_extracted_percents_nonneg :
    ∀ (text : List Char) (now : PyDateTime) (f : UsageFields),
      parse_usage_output text now = Except.ok f →
      (∀ v, f.session_percent = some v → 0 ≤ v) ∧
      (∀ v, f.week_percent = some v → 0 ≤ v) ∧
      (∀ v, f.sonnet_percent = some v → 0 ≤ v) ∧
      (∀ v, f.extra_percent = some v → 0 ≤ v) := by
  intro text now f h
  unfold parse_usage_output at h
  cases hs : sessionResetOf text now with
  | error e => rw [hs] at h; exact absurd h (by simp)
  | ok sr =>
    rw [hs] at h
    cases h
    refine ⟨fun v hv => ?_, fun v hv => ?_, fun v hv => ?_, fun v hv => ?_⟩
    · cases hr : rxSearch sessionPercentRx (cutAtWeek text) with
      | none => simp [sessionPercentOf, hr] at hv
      | some caps =>
        simp [sessionPercentOf, hr] at hv
        simp [← hv, pyIntDigits]
    · cases hr : rxSearch weekPercentRx text with
      | none => simp [weekPercentOf, hr] at hv
      | some caps =>
        simp [weekPercentOf, hr] at hv
        simp [← hv, pyIntDigits]
    · cases hr : rxSearch sonnetPercentRx text with
      | none => simp [sonnetPercentOf, hr] at hv
      | some caps =>
        simp [sonnetPercentOf, hr] at hv
        simp [← hv, pyIntDigits]
    · cases hr : rxSearch extraPercentRx text with
      | none => simp [extraPercentOf, hr] at hv
      | some caps =>
        simp [extraPercentOf, hr] at hv
        simp [← hv, pyIntDigits]

/-- Witness for C2_extracted_percents_nonneg on a concrete parse. -/
theorem C2_extracted_percents_nonneg_witness : (0 : Int) ≤ 42 :=
  (C2_extracted_percents_nonneg "session 42% used".data ⟨2026, 1, 10, 0, 0, 0, 0⟩
    ⟨some 42, none, none, none, none, none, none, none⟩ (by rfl)).1 42 rfl

/-- Helper: a run whose snapshots all lack the completion signal is still
polling. -/
theorem policyRun_all_false (pre : List UsageFields)
    (h : ∀ u ∈ pre, completionSignal u = false) : policyRun pre = PolicyState.polling := by
  induction pre with
  | nil => rfl
  | cons u rest ih =>
    have hu : completionSignal u = false := h u (by simp)
    have hstep : policyRun (u :: rest) = policyRun rest := by
      simp [policyRun, policyStep, hu]
    rw [hstep]
    exact ih (fun v hv => h v (by simp [hv]))

/-- Helper: terminal states absorb every further tick. -/
theorem policyFold_absorb (l : List UsageFields) :
    ∀ s : PolicyState, s ≠ PolicyState.polling → l.foldl policyStep s = s := by
  induction l with
  | nil => intro s _; rfl
  | cons u rest ih =>
    intro s hs
    have hstep : policyStep s u = s := by
      cases s with
      | polling => exact absurd rfl hs
      | earlyDone => rfl
      | timedOut => rfl
    rw [List.foldl_cons, hstep]
    exact ih s hs

/-- Claim C6: the policy leaves POLLING for EARLY_DONE at exactly the
first tick whose snapshot carries both completion fields, terminal states
absorb every further tick and the timeout transition, and a run that has
left POLLING never returns there. -/
theorem C6_completion_policy :
    (∀ (s : PolicyState) (f : UsageFields), s ≠ PolicyState.polling →
      policyStep s f = s ∧ policyTimeout s = s) ∧
    (∀ (pre : List UsageFields) (t : UsageFields),
      (∀ u ∈ pre, completionSignal u = false) → completionSignal t = true →
      policyRun pre = PolicyState.polling ∧
      policyRun (pre ++ [t]) = PolicyState.earlyDone) ∧
    (∀ (ticks more : List UsageFields), policyRun ticks ≠ PolicyState.polling →
      policyRun (ticks ++ more) = policyRun ticks) := by
  refine ⟨?_, ?_, ?_⟩
  · intro s f hs
    cases s with
    | polling => exact absurd rfl hs
    | earlyDone => exact ⟨rfl, rfl⟩
    | timedOut => exact ⟨rfl, rfl⟩
  · intro pre t hpre ht
    have hpoll := policyRun_all_false pre hpre
    refine ⟨hpoll, ?_⟩
    have : policyRun (pre ++ [t]) = [t].foldl policyStep (policyRun pre) := by
      simp [policyRun, List.foldl_append]
    rw [this, hpoll]
    simp [policyStep, ht]
  · intro ticks more hterm
    have : policyRun (ticks ++ more) = more.foldl policyStep (policyRun ticks) := by
      simp [policyRun, List.foldl_append]
    rw [this]
    exact policyFold_absorb more _ hterm

/-- Witness for C6_completion_policy on concrete snapshot sequences. -/
theorem C6_completion_policy_witness :
    (policyStep PolicyState.earlyDone ⟨none, none, none, none, none, none, none, none⟩ =
        PolicyState.earlyDone ∧
      policyTimeout PolicyState.earlyDone = PolicyState.earlyDone) ∧
    (policyRun [⟨none, none, none, none, none, none, none, none⟩] = PolicyState.polling ∧
      policyRun ([⟨none, none, none, none, none, none, none, none⟩] ++
        [⟨some 1, none, some 2, none, none, none, none, none⟩]) = PolicyState.earlyDone) ∧
    policyRun ([⟨some 1, none, some 2, none, none, none, none, none⟩] ++
        [⟨none, none, none, none, none, none, none, none⟩]) =
      policyRun [⟨some 1, none, some 2, none, none, none, none, none⟩] :=
  ⟨C6_completion_policy.1 PolicyState.earlyDone _ (by decide),
   C6_completion_policy.2.1 _ _ (by decide) (by decide),
   C6_completion_policy.2.2 _ _ (by decide)⟩

/-- Claim C7: when the PATH lookup, all fixed per-user locations, every
nvm version directory and the npx fallback all fail, find_claude resolves
nothing and fetch_usage_via_pty returns the launch error result before
any pseudo-terminal or child process exists, with no removed artifacts. -/
theorem C7_launch_error :
    ∀ (env : ExecEnv) (launch : String → FetchOutcome),
      env.whichClaude = none →
      env.npmGlobalClaudeIsFile = false →
      env.localBinClaudeIsFile = false →
      env.usrLocalClaudeIsFile = false →
      env.usrBinClaudeIsFile = false →
      (∀ v ∈ env.nvmNodeVersions.getD [], env.nvmClaudeExists v = false) →
      env.whichNpx = none →
      find_claude env = none ∧
      fetchUsageViaPty env launch =
        { errorResult := some "Claude not found", ptyOpened := false,
          processSpawned := false, removedPaths := [] } := by
  intro env launch h1 h2 h3 h4 h5 h6 h7
  have hfind : find_claude env = none := by
    unfold find_claude
    rw [h1, h2, h3, h4, h5]
    simp only [if_false, Bool.false_eq_true]
    cases hn : env.nvmNodeVersions with
    | none => simp [h7]
    | some vers =>
      have : vers.find? env.nvmClaudeExists = none := by
        rw [List.find?_eq_none]
        intro v hv
        simp [h6 v (by rw [hn]; exact hv)]
      simp [this, h7]
  refine ⟨hfind, ?_⟩
  unfold fetchUsageViaPty
  rw [hfind]

/-- Witness for C7_launch_error on a concrete empty environment. -/
theorem C7_launch_error_witness :
    find_claude ⟨none, false, false, false, false, some [], fun _ => false, none⟩ = none ∧
    fetchUsageViaPty ⟨none, false, false, false, false, some [], fun _ => false, none⟩
        (fun _ => ⟨none, true, true, []⟩) =
      { errorResult := some "Claude not found", ptyOpened := false,
        processSpawned := false, removedPaths := [] } :=
  C7_launch_error ⟨none, false, false, false, false, some [], fun _ => false, none⟩
    (fun _ => ⟨none, true, true, []⟩) rfl rfl rfl rfl rfl (by intro v hv; simp at hv) rfl

/-- Helper: splitting a colon-free string on the colon gives one chunk. -/
theorem splitColon_no_colon (l : List Char) (h : l.contains ':' = false) :
    splitColon l = [l] := by
  induction l with
  | nil => rfl
  | cons c t ih =>
    rw [List.contains_cons, Bool.or_eq_false_iff] at h
    have hc : (c == ':') = false :=
      beq_eq_false_iff_ne.mpr (Ne.symm (beq_eq_false_iff_ne.mp h.1))
    simp [splitColon, hc, ih h.2]

/-- Helper: splitting "12:" followed by a colon-free minute token. -/
theorem splitColon_twelve (mm : List Char) (h : mm.contains ':' = false) :
    splitColon ('1' :: '2' :: ':' :: mm) = [['1', '2'], mm] := by
  simp [splitColon, splitColon_no_colon mm h]

/-- Claim C10: _parse_time keeps hour 12 for "12:MM pm", maps "12:MM am"
to hour 0, and defaults the minutes of a colon-free hour token to 0. -/
theorem C10_parse_time_normalization :
    (∀ mm : List Char, mm ≠ [] → mm.all Char.isDigit = true → mm.contains ':' = false →
      parse_time ('1' :: '2' :: ':' :: mm) "pm" = (12, digitsVal mm) ∧
      parse_time ('1' :: '2' :: ':' :: mm) "am" = (0, digitsVal mm)) ∧
    (∀ (tp : List Char) (ampm : String), tp.contains ':' = false →
      (parse_time tp ampm).2 = 0) := by
  constructor
  · intro mm _ _ hc
    have hcontains : ('1' :: '2' :: ':' :: mm).contains ':' = true := by
      simp [List.contains_cons]
    have hsplit := splitColon_twelve mm hc
    have h12 : digitsVal ['1', '2'] = 12 := by decide
    constructor
    · simp [parse_time, hcontains, hsplit, h12]
    · simp [parse_time, hcontains, hsplit, h12]
  · intro tp ampm h
    simp only [parse_time, h]
    split
    · exact absurd (by assumption) (by simp)
    · split
      · rfl
      · split
        · rfl
        · rfl

/-- Witness for C10_parse_time_normalization at minute token "34" and the
bare hour token "7". -/
theorem C10_parse_time_normalization_witness :
    (parse_time ('1' :: '2' :: ':' :: ['3', '4']) "pm" = (12, digitsVal ['3', '4']) ∧
      parse_time ('1' :: '2' :: ':' :: ['3', '4']) "am" = (0, digitsVal ['3', '4'])) ∧
    (parse_time ['7'] "am").2 = 0 :=
  ⟨C10_parse_time_normalization.1 ['3', '4'] (by decide) (by decide) (by decide),
   C10_parse_time_normalization.2 ['7'] "am" (by decide)⟩

/-- Helper: a lookup that succeeds still succeeds after appending entries. -/
theorem lookupSeen_append_left (s l : List (String × Nat)) (k : String) (v : Nat)
    (h : lookupSeen s k = some v) : lookupSeen (s ++ l) k = some v := by
  unfold lookupSeen at h ⊢
  cases hf : s.find? (fun p => p.1 == k) with
  | none => rw [hf] at h; simp at h
  | some p =>
    rw [hf] at h
    rw [List.find?_append, hf]
    simpa using h

/-- Helper: one guarded insertion never changes an existing binding. -/
theorem seenStep_preserve (e : Nat) (s : List (String × Nat)) (kk k : String) (v : Nat)
    (h : lookupSeen s k = some v) : lookupSeen (seenStep e s kk) k = some v := by
  unfold seenStep
  split
  · exact h
  · exact lookupSeen_append_left _ _ _ _ h

/-- Helper: one tick of insertions never changes an existing binding. -/
theorem updateSeen_preserve (keys : List String) :
    ∀ (s : List (String × Nat)) (e : Nat) (k : String) (v : Nat),
      lookupSeen s k = some v → lookupSeen (updateSeen s keys e) k = some v := by
  induction keys with
  | nil => intro s _ k v h; exact h
  | cons a rest ih =>
    intro s e k v h
    have hrw : updateSeen s (a :: rest) e = updateSeen (seenStep e s a) rest e := by
      simp [updateSeen, List.foldl_cons]
    rw [hrw]
    exact ih _ e k v (seenStep_preserve e s a k v h)

/-- Helper: a whole run never changes an existing binding. -/
theorem runSeen_preserve (ticks : List (UsageFields × Nat)) :
    ∀ (s : List (String × Nat)) (k : String) (v : Nat),
      lookupSeen s k = some v → lookupSeen (runSeen s ticks) k = some v := by
  induction ticks with
  | nil => intro s k v h; exact h
  | cons t rest ih =>
    intro s k v h
    have hrw : runSeen s (t :: rest) = runSeen (updateSeen s (fieldKeys t.1) t.2) rest := by
      simp [runSeen, List.foldl_cons]
    rw [hrw]
    exact ih _ k v (updateSeen_preserve _ _ _ _ _ h)

/-- Helper: a binding found after appending one pair was already there or
is the appended key. -/
theorem lookupSeen_append_single (s : List (String × Nat)) (a : String) (e : Nat) (k : String)
    (h : (lookupSeen (s ++ [(a, e)]) k).isSome = true) :
    (lookupSeen s k).isSome = true ∨ k = a := by
  unfold lookupSeen at h ⊢
  rw [List.find?_append] at h
  cases hf : s.find? (fun p => p.1 == k) with
  | some p => exact Or.inl rfl
  | none =>
    rw [hf, Option.none_or] at h
    cases hak : (a == k) with
    | true => exact Or.inr (eq_of_beq hak).symm
    | false =>
      rw [List.find?_cons_of_neg _ (by simp [hak]), List.find?_nil] at h
      simp at h

/-- Helper: a binding found after one guarded insertion was already there
or is the inserted key. -/
theorem seenStep_subset (e : Nat) (s : List (String × Nat)) (kk k : String)
    (h : (lookupSeen (seenStep e s kk) k).isSome = true) :
    (lookupSeen s k).isSome = true ∨ k = kk := by
  unfold seenStep at h
  split at h
  · exact Or.inl h
  · exact lookupSeen_append_single s kk e k h

/-- Helper: a binding found after one tick was already there or is one of
the tick keys. -/
theorem updateSeen_subset (keys : List String) :
    ∀ (s : List (String × Nat)) (e : Nat) (k : String),
      (lookupSeen (updateSeen s keys e) k).isSome = true →
      (lookupSeen s k).isSome = true ∨ k ∈ keys := by
  induction keys with
  | nil => intro s _ k h; exact Or.inl h
  | cons a rest ih =>
    intro s e k h
    have hrw : updateSeen s (a :: rest) e = updateSeen (seenStep e s a) rest e := by
      simp [updateSeen, List.foldl_cons]
    rw [hrw] at h
    rcases ih _ e k h with h2 | h2
    · rcases seenStep_subset e s a k h2 with h3 | h3
      · exact Or.inl h3
      · exact Or.inr (by simp [h3])
    · exact Or.inr (by simp [h2])

/-- Helper: a binding found after a run was already there or came from
some observed snapshot key. -/
theorem runSeen_subset (ticks : List (UsageFields × Nat)) :
    ∀ (s : List (String × Nat)) (k : String),
      (lookupSeen (runSeen s ticks) k).isSome = true →
      (lookupSeen s k).isSome = true ∨ ∃ t ∈ ticks, k ∈ fieldKeys t.1 := by
  induction ticks with
  | nil => intro s k h; exact Or.inl h
  | cons t rest ih =>
    intro s k h
    have hrw : runSeen s (t :: rest) = runSeen (updateSeen s (fieldKeys t.1) t.2) rest := by
      simp [runSeen, List.foldl_cons]
    rw [hrw] at h
    rcases ih _ k h with h2 | h2
    · rcases updateSeen_subset _ _ _ _ h2 with h3 | h3
      · exact Or.inl h3
      · exact Or.inr ⟨t, by simp, h3⟩
    · obtain ⟨u, hu, hk⟩ := h2
      exact Or.inr ⟨u, by simp [hu], hk⟩

/-- Claim C9: the first-seen timing map is append-only — a binding, once
present, survives every later tick and the final pass unchanged — and its
key set stays inside the set of field names ever observed in the parse
snapshots. -/
theorem C9_field_timing :
    ∀ (ticks : List (UsageFields × Nat)) (s : List (String × Nat)) (k : String),
      (∀ v, lookupSeen s k = some v → lookupSeen (runSeen s ticks) k = some v) ∧
      ((lookupSeen (runSeen s ticks) k).isSome = true →
        (lookupSeen s k).isSome = true ∨ k ∈ (ticks.map (fun t => fieldKeys t.1)).flatten) := by
  intro ticks s k
  refine ⟨fun v h => runSeen_preserve ticks s k v h, fun h => ?_⟩
  rcases runSeen_subset ticks s k h with h2 | h2
  · exact Or.inl h2
  · obtain ⟨t, ht, hk⟩ := h2
    exact Or.inr (List.mem_flatten.mpr ⟨fieldKeys t.1, List.mem_map.mpr ⟨t, ht, rfl⟩, hk⟩)

/-- Witness for C9_field_timing: a binding made at elapsed time 1 is not
overwritten by a later tick that also carries the key, and a key present
after the run is accounted for by an observed snapshot. -/
theorem C9_field_timing_witness :
    lookupSeen (runSeen [("week_percent", 1)]
        [(⟨some 1, none, some 2, none, none, none, none, none⟩, 3)]) "week_percent" =
      some 1 ∧
    ((lookupSeen [("week_percent", 1)] "session_percent").isSome = true ∨
      "session_percent" ∈
        (([((⟨some 1, none, some 2, none, none, none, none, none⟩ : UsageFields), 3)]).map
          (fun t => fieldKeys t.1)).flatten) :=
  ⟨(C9_field_timing _ _ _).1 1 (by rfl),
   (C9_field_timing [(⟨some 1, none, some 2, none, none, none, none, none⟩, 3)]
     [("week_percent", 1)] "session_percent").2 (by decide)⟩

/-- Helper: a prefix is a substring. -/
theorem containsSub_of_starts (n h : List Char) (hp : n.isPrefixOf h = true) :
    containsSub n h = true := by
  cases h with
  | nil =>
    cases n with
    | nil => rfl
    | cons a t => simp [List.isPrefixOf] at hp
  | cons c t => simp [containsSub, hp]

/-- Helper: a list is a prefix of itself followed by anything. -/
theorem isPrefixOf_append_self (n r : List Char) : n.isPrefixOf (n ++ r) = true := by
  induction n with
  | nil => simp
  | cons c t ih => simp [List.isPrefixOf, ih]

/-- Helper: every list is a substring of itself. -/
theorem containsSub_self (n : List Char) : containsSub n n = true :=
  containsSub_of_starts n n (by simp)

/-- Helper: some component carrying the needle makes the path carry it. -/
theorem pathContains_of_comp (p : CPath) (sid comp : List Char) (hm : comp ∈ p)
    (hc : containsSub sid comp = true) : pathContains p sid = true :=
  List.any_eq_true.mpr ⟨comp, hm, hc⟩

/-- Helper: a glob pattern that starts with a wildcard-free literal only
matches names that start with that literal. -/
theorem globMatch_lit_starts (sid : List Char) :
    ∀ (pat name : List Char), (∀ c ∈ sid, c ≠ '*' ∧ c ≠ '?') →
      globMatch (sid ++ pat) name = true → sid.isPrefixOf name = true := by
  induction sid with
  | nil => intro pat name _ _; simp
  | cons c cs ih =>
    intro pat name hm h
    obtain ⟨hstar, hq⟩ := hm c (by simp)
    have hcs : (c == '*') = false := beq_eq_false_iff_ne.mpr hstar
    have hcq : (c == '?') = false := beq_eq_false_iff_ne.mpr hq
    rw [List.cons_append] at h
    cases name with
    | nil => simp [globMatch, hcs] at h
    | cons d n =>
      simp only [globMatch, hcs, Bool.false_eq_true, if_false, hcq, Bool.false_or,
        Bool.and_eq_true] at h
      simp [List.isPrefixOf, h.1, ih pat n (fun x hx => hm x (by simp [hx])) h.2]

/-- Helper: membership in an ite-guarded singleton. -/
theorem mem_ite_singleton {α : Type} {c : Prop} [Decidable c] {a x : α}
    (h : a ∈ (if c then [x] else [])) : a = x := by
  split at h
  · simpa using h
  · simp at h

/-- Helper: every removal action of clean_session targets a path one of
whose components carries the session identifier, provided the identifier
contains no glob wildcard. -/
theorem sessionActs_contain (fs : List FsEntry) (sid : List Char)
    (hm : ∀ c ∈ sid, c ≠ '*' ∧ c ≠ '?' ∧ c ≠ '[') :
    ∀ a ∈ sessionActs fs sid, pathContains a.1 sid = true := by
  intro a ha
  unfold sessionActs at ha
  simp only [List.mem_append] at ha
  rcases ha with (((h1 | h2) | h3) | h4) | h5
  · rw [mem_ite_singleton h1]
    exact pathContains_of_comp _ _ (sid ++ ".txt".data) (by simp)
      (containsSub_of_starts _ _ (isPrefixOf_append_self sid _))
  · rw [mem_ite_singleton h2]
    exact pathContains_of_comp _ _ sid (by simp) (containsSub_self sid)
  · rw [mem_ite_singleton h3]
    exact pathContains_of_comp _ _ sid (by simp) (containsSub_self sid)
  · split at h4
    · simp only [List.mem_map, List.mem_filter] at h4
      obtain ⟨n, ⟨_, hglob⟩, rfl⟩ := h4
      have hpre := globMatch_lit_starts sid ("-*.json".data) n
        (fun c hc => ⟨(hm c hc).1, (hm c hc).2.1⟩) hglob
      exact pathContains_of_comp _ _ n (by simp) (containsSub_of_starts _ _ hpre)
    · simp at h4
  · split at h5
    · simp only [List.mem_flatten, List.mem_map] at h5
      obtain ⟨l, ⟨pr, _, rfl⟩, hal⟩ := h5
      rcases List.mem_append.mp hal with hf | hd
      · rw [mem_ite_singleton hf]
        exact pathContains_of_comp _ _ (sid ++ ".jsonl".data) (by simp)
          (containsSub_of_starts _ _ (isPrefixOf_append_self sid _))
      · rw [mem_ite_singleton hd]
        exact pathContains_of_comp _ _ sid (by simp) (containsSub_self sid)
    · simp at h5

/-- Claim C8 as amended: for every file system and every session
identifier free of glob wildcards (as the minted UUID identifiers are),
clean_session removes only paths that carry the identifier, and every
entry whose path does not carry the identifier survives unchanged. -/
theorem C8_clean_session_scoped :
    ∀ (fs : List FsEntry) (sid : List Char),
      (∀ c ∈ sid, c ≠ '*' ∧ c ≠ '?' ∧ c ≠ '[') →
      (∀ p ∈ (clean_session fs sid).1, pathContains p sid = true) ∧
      (∀ e ∈ fs, pathContains e.path sid = false → e ∈ (clean_session fs sid).2) := by
  intro fs sid hm
  constructor
  · intro p hp
    unfold clean_session at hp
    simp only [List.mem_map] at hp
    obtain ⟨a, ha, rfl⟩ := hp
    exact sessionActs_contain fs sid hm a ha
  · intro e he hnc
    unfold clean_session
    simp only [List.mem_filter]
    refine ⟨he, ?_⟩
    cases hany : (sessionActs fs sid).any (fun a => coversB a e.path) with
    | false => rfl
    | true =>
      exfalso
      obtain ⟨a, ha, hc⟩ := List.any_eq_true.mp hany
      have hpc := sessionActs_contain fs sid hm a ha
      unfold coversB at hc
      rw [Bool.or_eq_true] at hc
      rcases hc with heq | hand
      · rw [eq_of_beq heq] at hnc
        rw [hnc] at hpc
        exact Bool.false_ne_true hpc
      · rw [Bool.and_eq_true] at hand
        obtain ⟨tail, htail⟩ := List.isPrefixOf_iff_prefix.mp hand.2
        obtain ⟨comp, hcm, hcc⟩ := List.any_eq_true.mp hpc
        have hmem : comp ∈ e.path := by
          rw [← htail]
          exact List.mem_append_left tail hcm
        have := pathContains_of_comp e.path sid comp hmem hcc
        rw [hnc] at this
        exact Bool.false_ne_true this

/-- Claim C8 counterexample: with the session identifier "*" (a glob
wildcard), the todos glob removes a file whose path does not contain the
identifier at all. -/
theorem C8_glob_star_escapes_identifier :
    (clean_session
        [⟨claudeDir ++ ["todos".data], true⟩,
         ⟨claudeDir ++ ["todos".data, "a-b.json".data], false⟩]
        "*".data).1 =
      [claudeDir ++ ["todos".data, "a-b.json".data]] ∧
    pathContains (claudeDir ++ ["todos".data, "a-b.json".data]) "*".data = false := by
  exact ⟨by rfl, by rfl⟩

/-- Witness for C8_clean_session_scoped on a concrete file system holding
a debug artifact of session "abc" and one unrelated entry. -/
theorem C8_clean_session_scoped_witness :
    pathContains (claudeDir ++ ["debug".data, "abc.txt".data]) "abc".data = true ∧
    (⟨claudeDir ++ ["other".data], false⟩ : FsEntry) ∈
      (clean_session
        [⟨claudeDir ++ ["debug".data, "abc.txt".data], false⟩,
         ⟨claudeDir ++ ["other".data], false⟩] "abc".data).2 :=
  ⟨(C8_clean_session_scoped
      [⟨claudeDir ++ ["debug".data, "abc.txt".data], false⟩,
       ⟨claudeDir ++ ["other".data], false⟩] "abc".data (by decide)).1
      (claudeDir ++ ["debug".data, "abc.txt".data]) (by decide),
   (C8_clean_session_scoped
      [⟨claudeDir ++ ["debug".data, "abc.txt".data], false⟩,
       ⟨claudeDir ++ ["other".data], false⟩] "abc".data (by decide)).2
      ⟨claudeDir ++ ["other".data], false⟩ (by decide) (by decide)⟩
